import Mathlib

/-!
Verification of the toggle/context/HOC/render-props patterns repository.

The JavaScript sources are shallowly embedded: JS objects become ordered
association lists from string keys to attribute values (later writes win,
as in object literals and spreads), function values become an opaque
inductive, and firing a handler returns the list of calls it performs.
-/

/-- Opaque JS function values that appear in the claims: the container's
bound toggle action, and named caller-supplied handlers. -/
inductive JsFun where
  | toggleAction
  | named (id : String)
deriving DecidableEq, Repr

/-- The object published under the reserved TOGGLE_CONTEXT key:
{ on: this.state.on, toggle: this.toggle }. -/
structure ChannelCtx where
  «on» : Bool
  toggle : JsFun
deriving DecidableEq, Repr

/-- Attribute and prop values. The composed constructor records the list
built by compose(...funcs): each entry is a function value or undefined. -/
inductive Attr where
  | b (v : Bool)
  | s (v : String)
  | fn (f : JsFun)
  | composed (fns : List (Option JsFun))
  | obj (c : ChannelCtx)
  | undef
deriving DecidableEq, Repr

/-- A JS object: ordered key-value pairs, first occurrence of a key wins
on lookup (objects built by objSet and objSpread never duplicate keys). -/
abbrev JsObj := List (String × Attr)

def objGet : JsObj → String → Option Attr
  | [], _ => none
  | (k1, v1) :: rest, k => if k1 = k then some v1 else objGet rest k

/-- Property write: updating an existing key keeps its position, a new
key is appended, matching JS object insertion order semantics. -/
def objSet : JsObj → String → Attr → JsObj
  | [], k, v => [(k, v)]
  | (k1, v1) :: rest, k, v =>
    if k1 = k then (k1, v) :: rest else (k1, v1) :: objSet rest k v

/-- Spread of ext into base: each entry written in order, later wins. -/
def objSpread (base : JsObj) : JsObj → JsObj
  | [] => base
  | (k, v) :: rest => objSpread (objSet base k v) rest

/-- Rest pattern of a destructuring such as { onClick, ...props }:
every entry for the extracted key is dropped. -/
def objErase (o : JsObj) (k : String) : JsObj := o.filter (fun p => p.1 != k)

def objKeys (o : JsObj) : List String := o.map Prod.fst

/-- State of the context-variant Toggle component: state = { on: false }. -/
structure ToggleComp where
  «on» : Bool
deriving DecidableEq, Repr

/-- Construction of the context-variant Toggle: state = { on: false },
no initial-value prop exists. -/
def toggleConstruct : ToggleComp := { «on» := false }

/-- Operational model of
toggle = () => this.setState(({on}) => ({on: !on}), () => this.props.onToggle(this.state.on)).
A call commits the functional updater against the current committed state,
then the callback reads the committed state and hands it to onToggle; the
callback may issue further re-entrant toggle calls (cb maps the observed
value to how many). Fuel bounds the recursion; exhaustion only truncates.
Returns the final committed state and the values passed to onToggle, in
invocation order. -/
def execToggles (cb : Bool → Nat) : Nat → ToggleComp → Nat → ToggleComp × List Bool
  | 0, st, _ => (st, [])
  | _ + 1, st, 0 => (st, [])
  | fuel + 1, st, pending + 1 =>
    ((execToggles cb fuel
        (execToggles cb fuel { «on» := !st.on } (cb (!st.on))).1 pending).1,
     (!st.on) ::
       ((execToggles cb fuel { «on» := !st.on } (cb (!st.on))).2 ++
        (execToggles cb fuel
          (execToggles cb fuel { «on» := !st.on } (cb (!st.on))).1 pending).2))

/-- A list of observed callback values is causally chained from s when each
entry is the negation of the previously committed value. -/
def flipChain : Bool → List Bool → Prop
  | _, [] => True
  | s, v :: rest => v = !s ∧ flipChain v rest

/-- State of RenderPropsToggle: defaultOn is the captured construction
value (initialState = { on: this.props.defaultOn }), on is state.on. -/
structure RPToggle where
  defaultOn : Bool
  «on» : Bool
deriving DecidableEq, Repr

/-- Construction of RenderPropsToggle: defaultProps gives defaultOn = false
when the prop is absent; initialState = { on: this.props.defaultOn }. -/
def rptConstruct (defaultOnProp : Option Bool) : RPToggle :=
  { defaultOn := defaultOnProp.getD false, «on» := defaultOnProp.getD false }

/-- toggle = () => this.setState(({on}) => ({on: !on}), () => this.props.onToggle(this.state.on)).
Returns the committed state and the value handed to onToggle. -/
def rptToggle (st : RPToggle) : RPToggle × Bool :=
  ({ st with «on» := !st.on }, !st.on)

/-- reset = () => this.setState(this.initialState, () => this.props.onReset(this.state.on)).
Returns the committed state and the value handed to onReset. -/
def rptReset (st : RPToggle) : RPToggle × Bool :=
  ({ st with «on» := st.defaultOn }, st.defaultOn)

/-- Iterated toggle calls (discarding the callback values). -/
def rptToggleN : Nat → RPToggle → RPToggle
  | 0, st => st
  | n + 1, st => rptToggleN n (rptToggle st).1

/-- compose = (...funcs) => (...args) => funcs.forEach(fn => fn && fn(...args)):
firing the composed handler calls each present function with the same
argument list, in order, skipping undefined entries. Returns the calls. -/
def fireComposed (fns : List (Option JsFun)) (args : List String) :
    List (JsFun × List String) :=
  fns.filterMap (fun f => f.map (fun g => (g, args)))

/-- The destructured onClick value as handed to compose. The claims only
exercise function-valued or absent overrides; an absent entry is the
undefined that fn && fn(...args) skips. -/
def attrFun : Option Attr → Option JsFun
  | some (.fn f) => some f
  | _ => none

/-- getTogglerProps = ({ onClick, ...props } = {}) => ({
  aria-expanded: this.state.on,
  onClick: compose(onClick, this.toggle),
  ...props }). -/
def getTogglerProps (onState : Bool) (overrides : JsObj) : JsObj :=
  objSpread
    [("aria-expanded", Attr.b onState),
     ("onClick", Attr.composed [attrFun (objGet overrides "onClick"),
                                some JsFun.toggleAction])]
    (objErase overrides "onClick")

/-- Firing an attribute value as an event handler. -/
def fireAttr : Attr → List String → List (JsFun × List String)
  | .composed fns, args => fireComposed fns args
  | .fn f, args => [(f, args)]
  | _, _ => []

/-- Firing the onClick entry of an attribute set. -/
def fireOnClick (o : JsObj) (args : List String) : List (JsFun × List String) :=
  match objGet o "onClick" with
  | some a => fireAttr a args
  | none => []

/-- JS error raised by the direct context readers: destructuring
const {on} = context[TOGGLE_CONTEXT] when the key is absent throws a
TypeError. -/
inductive JsError where
  | typeError
deriving DecidableEq, Repr

/-- Direct reader ToggleOn of the context variant:
function ToggleOn({children}, context) { const {on} = context[TOGGLE_CONTEXT]; return on ? children : null }.
Outside any Toggle subtree the context key is absent and the destructuring
throws. -/
def ToggleOn_ctxReader (children : String) (context : Option ChannelCtx) :
    Except JsError (Option String) :=
  match context with
  | none => .error .typeError
  | some c => .ok (if c.on then some children else none)

/-- The channel object as spread by the spread-style withToggle wrapper:
spreading undefined contributes nothing. -/
def ctxToObj : Option ChannelCtx → JsObj
  | none => []
  | some c => [("on", Attr.b c.on), ("toggle", Attr.fn c.toggle)]

/-- Props the spread-style withToggle wrapper hands its inner component:
Wrapper(props, context) = <Component {...context[TOGGLE_CONTEXT]} {...props} />. -/
def withToggle_spread_props (props : JsObj) (context : Option ChannelCtx) : JsObj :=
  objSpread (ctxToObj context) props

/-- JS truthiness of a possibly absent attribute value (undefined, false
and the empty string are falsy). -/
def attrTruthy : Option Attr → Bool
  | none => false
  | some .undef => false
  | some (.b v) => v
  | some (.s v) => v != ""
  | some (.fn _) => true
  | some (.composed _) => true
  | some (.obj _) => true

/-- Inner unit of the spread-decorated ToggleOn:
({ children, on }) => on ? children : null. An absent on is undefined,
which is falsy, so the unit renders null. -/
def toggleOnSpreadInner (children : String) (props : JsObj) : Option String :=
  if attrTruthy (objGet props "on") then some children else none

/-- Result of rendering the inner component inside the reserved-key
withToggle wrapper: ref is the inner reference slot, props the ordinary
parameters. -/
structure InnerRender where
  ref : Option Attr
  props : JsObj
deriving DecidableEq, Repr

/-- Reserved-key withToggle wrapper:
Wrapper({innerRef, ...props}, context) = <Component ref={innerRef} {...props} toggle={context[TOGGLE_CONTEXT]} />.
The toggle attribute is written after the spread, and innerRef is
destructured out of the ordinary parameters. -/
def withToggle_render (props : JsObj) (context : Option ChannelCtx) : InnerRender :=
  { ref := objGet props "innerRef",
    props := objSet (objErase props "innerRef") "toggle"
      (match context with
       | none => Attr.undef
       | some c => Attr.obj c) }

/-- A display unit with its identity metadata: function name, optional
displayName, and attached constant (static) members. -/
structure DisplayUnit where
  name : String
  displayName : Option String
  statics : List (String × Attr)
deriving DecidableEq, Repr

/-- withToggle of the hoisting variant: sets
Wrapper.displayName = withToggle(Component.displayName || Component.name),
sets Wrapper.WrappedComponent = Component, and hoistNonReactStatics copies
the static members of the component onto the wrapper. -/
def withToggle_hoist (unit : DisplayUnit) : DisplayUnit :=
  { name := "Wrapper",
    displayName := some ("withToggle(" ++ (unit.displayName.getD unit.name) ++ ")"),
    statics := objSpread [("WrappedComponent", Attr.s unit.name)] unit.statics }

/-- withToggle of the no-hoist variant (part_002): sets the same composite
displayName but returns the fresh Wrapper directly, copying no static
members of the component. -/
def withToggle_noHoist (unit : DisplayUnit) : DisplayUnit :=
  { name := "Wrapper",
    displayName := some ("withToggle(" ++ (unit.displayName.getD unit.name) ++ ")"),
    statics := [] }

theorem objGet_objSet_self (o : JsObj) (k : String) (v : Attr) :
    objGet (objSet o k v) k = some v := by
  induction o with
  | nil => simp [objSet, objGet]
  | cons p rest ih =>
      obtain ⟨k1, v1⟩ := p
      by_cases h : k1 = k <;> simp [objSet, objGet, h, ih]

theorem objGet_objSet_ne (o : JsObj) (k k' : String) (v : Attr) (h : k ≠ k') :
    objGet (objSet o k v) k' = objGet o k' := by
  induction o with
  | nil => simp [objSet, objGet, h]
  | cons p rest ih =>
      obtain ⟨k1, v1⟩ := p
      by_cases h1 : k1 = k
      · subst h1; simp [objSet, objGet, h]
      · simp [objSet, objGet, h1, ih]

theorem objGet_objSpread_not_mem (ext : JsObj) :
    ∀ base k, k ∉ objKeys ext → objGet (objSpread base ext) k = objGet base k := by
  induction ext with
  | nil => intro base k _; rfl
  | cons p rest ih =>
      intro base k hk
      obtain ⟨k1, v1⟩ := p
      simp only [objKeys, List.map_cons, List.mem_cons] at hk
      push_neg at hk
      rw [objSpread, ih _ _ (by simpa [objKeys] using hk.2),
        objGet_objSet_ne _ _ _ _ (fun h => hk.1 h.symm)]

theorem objGet_objSpread_mem (ext : JsObj) :
    ∀ base k v, (objKeys ext).Nodup → (k, v) ∈ ext →
      objGet (objSpread base ext) k = some v := by
  induction ext with
  | nil => intro _ _ _ _ h; cases h
  | cons p rest ih =>
      intro base k v hnd hm
      obtain ⟨k1, v1⟩ := p
      simp only [objKeys, List.map_cons, List.nodup_cons] at hnd
      rcases List.mem_cons.mp hm with h | h
      · cases h
        rw [objSpread, objGet_objSpread_not_mem _ _ _ (by simpa [objKeys] using hnd.1),
          objGet_objSet_self]
      · rw [objSpread]
        exact ih _ _ _ hnd.2 h

theorem objKeys_objErase_not_mem (o : JsObj) (k : String) :
    k ∉ objKeys (objErase o k) := by
  induction o with
  | nil => simp [objErase, objKeys]
  | cons p rest ih =>
      obtain ⟨k1, v1⟩ := p
      by_cases h : k1 = k
      · simpa [objErase, List.filter_cons, h] using ih
      · simp only [objErase, objKeys, List.filter_cons] at ih ⊢
        simp [h, Ne.symm h, ih]

theorem objErase_of_not_mem (o : JsObj) (k : String) (h : k ∉ objKeys o) :
    objErase o k = o := by
  simp only [objKeys] at h
  rw [objErase, List.filter_eq_self]
  intro p hp
  simp only [bne_iff_ne, ne_eq]
  intro hpk
  exact h (hpk ▸ List.mem_map_of_mem Prod.fst hp)

theorem objGet_getTogglerProps_onClick (onState : Bool) (ov : JsObj) :
    objGet (getTogglerProps onState ov) "onClick"
      = some (Attr.composed [attrFun (objGet ov "onClick"), some JsFun.toggleAction]) := by
  rw [getTogglerProps,
    objGet_objSpread_not_mem _ _ _ (objKeys_objErase_not_mem ov "onClick")]
  rfl

theorem getLastD_cons_eq (a d : Bool) (l : List Bool) :
    (a :: l).getLastD d = l.getLastD a := by
  cases l <;> rfl

theorem getLastD_append_eq (l1 l2 : List Bool) (d : Bool) :
    (l1 ++ l2).getLastD d = l2.getLastD (l1.getLastD d) := by
  induction l1 generalizing d with
  | nil => rfl
  | cons a t ih => rw [List.cons_append, getLastD_cons_eq, getLastD_cons_eq, ih]

theorem flipChain_append_iff (s : Bool) (l1 l2 : List Bool) :
    flipChain s (l1 ++ l2) ↔ flipChain s l1 ∧ flipChain (l1.getLastD s) l2 := by
  induction l1 generalizing s with
  | nil => simp [flipChain]
  | cons a t ih =>
      rw [List.cons_append, getLastD_cons_eq]
      simp only [flipChain, ih a, and_assoc]

theorem execToggles_spec (cb : Bool → Nat) :
    ∀ fuel st pending,
      flipChain st.on (execToggles cb fuel st pending).2 ∧
      (execToggles cb fuel st pending).1.on
        = (execToggles cb fuel st pending).2.getLastD st.on := by
  intro fuel
  induction fuel with
  | zero => intro st pending; exact ⟨trivial, rfl⟩
  | succ f ih =>
      intro st pending
      cases pending with
      | zero => exact ⟨trivial, rfl⟩
      | succ p =>
          have h1 := ih { «on» := !st.on } (cb (!st.on))
          have h2 := ih (execToggles cb f { «on» := !st.on } (cb (!st.on))).1 p
          constructor
          · show flipChain st.on ((!st.on) :: _)
            refine ⟨rfl, ?_⟩
            rw [flipChain_append_iff]
            exact ⟨h1.1, h1.2 ▸ h2.1⟩
          · show _ = ((!st.on) :: _).getLastD st.on
            rw [getLastD_cons_eq, getLastD_append_eq, ← h1.2]
            exact h2.2

/-- Claim C1: two toggle calls in succession return the state to s while
onToggle fires twice, first with !s and then with s; the same involution
holds for RenderPropsToggle and its callback values. -/
theorem toggle_involution : ∀ s : Bool,
    execToggles (fun _ => 0) 3 { «on» := s } 2 = ({ «on» := s }, [!s, s]) ∧
    ∀ d o : Bool,
      (rptToggle (rptToggle { defaultOn := d, «on» := o }).1).1
          = { defaultOn := d, «on» := o } ∧
      (rptToggle { defaultOn := d, «on» := o }).2 = !o ∧
      (rptToggle (rptToggle { defaultOn := d, «on» := o }).1).2 = o := by
  decide

/-- Claim C9: a container constructed with no initial-value prop exposes
on = false (both the context-variant Toggle, whose state is hard-coded,
and RenderPropsToggle via defaultProps), and RenderPropsToggle constructed
with defaultOn = true exposes on = true. -/
theorem initial_state_defaults :
    toggleConstruct.on = false ∧
    (rptConstruct none).on = false ∧
    (rptConstruct (some true)).on = true := by
  decide

/-- Claim C4: after any number of toggle calls, reset restores the state
to the value captured at construction and onReset is invoked with that
post-reset value. -/
theorem reset_restores_initial : ∀ (b : Bool) (n : Nat),
    (rptReset (rptToggleN n (rptConstruct (some b)))).1.on = b ∧
    (rptReset (rptToggleN n (rptConstruct (some b)))).2 = b := by
  have hd : ∀ (n : Nat) (st : RPToggle), (rptToggleN n st).defaultOn = st.defaultOn := by
    intro n
    induction n with
    | zero => intro st; rfl
    | succ m ih => intro st; exact ih _
  intro b n
  constructor
  · show (rptToggleN n (rptConstruct (some b))).defaultOn = b
    rw [hd]
    rfl
  · show (rptToggleN n (rptConstruct (some b))).defaultOn = b
    rw [hd]
    rfl

/-- Claim C5: every executed toggle commits the negation of the previously
committed state and then hands exactly that committed value to onToggle
(the log is a causal flip chain, so the callback never observes the old
value and re-entrant toggles never act on a stale snapshot); the final
state is the last committed value; and a single non-re-entrant toggle
invokes onToggle exactly once, with the new value. -/
theorem onToggle_commit_order (cb : Bool → Nat) (fuel pending : Nat) (s : Bool) :
    flipChain s (execToggles cb fuel { «on» := s } pending).2 ∧
    (execToggles cb fuel { «on» := s } pending).1.on
      = (execToggles cb fuel { «on» := s } pending).2.getLastD s ∧
    execToggles (fun _ => 0) 1 { «on» := s } 1 = ({ «on» := !s }, [!s]) := by
  refine ⟨(execToggles_spec cb fuel { «on» := s } pending).1,
    (execToggles_spec cb fuel { «on» := s } pending).2, ?_⟩
  cases s <;> rfl

theorem objGet_eq_none_of_not_mem (o : JsObj) (k : String) (h : k ∉ objKeys o) :
    objGet o k = none := by
  induction o with
  | nil => rfl
  | cons p rest ih =>
      obtain ⟨k1, v1⟩ := p
      simp only [objKeys, List.map_cons, List.mem_cons] at h
      push_neg at h
      simp [objGet, show k1 ≠ k from fun hh => h.1 hh.symm,
        ih (by simpa [objKeys] using h.2)]

theorem objErase_cons_self (P : JsObj) (k : String) (v : Attr) :
    objErase ((k, v) :: P) k = objErase P k := by
  simp [objErase, List.filter_cons]

/-- Claim C3: on a container with on = true, getTogglerProps with an
onClick override yields an attribute set where firing onClick invokes
both the override and the container toggle action, aria-expanded equals
true when the overrides leave it alone, and every non-onClick override
entry wins outright — including an override that collides with the
computed aria-expanded default, which it beats because the overrides
are spread last. -/
theorem getTogglerProps_composition (extra : JsFun) (P : JsObj) (args : List String)
    (h1 : "onClick" ∉ objKeys P) (h3 : (objKeys P).Nodup) :
    fireOnClick (getTogglerProps true (("onClick", Attr.fn extra) :: P)) args
        = [(extra, args), (JsFun.toggleAction, args)] ∧
    ("aria-expanded" ∉ objKeys P →
      objGet (getTogglerProps true (("onClick", Attr.fn extra) :: P)) "aria-expanded"
        = some (Attr.b true)) ∧
    ∀ k v, (k, v) ∈ P →
      objGet (getTogglerProps true (("onClick", Attr.fn extra) :: P)) k = some v := by
  have hov : objGet (("onClick", Attr.fn extra) :: P) "onClick"
      = some (Attr.fn extra) := by simp [objGet]
  have herase : objErase (("onClick", Attr.fn extra) :: P) "onClick" = P := by
    rw [objErase_cons_self, objErase_of_not_mem P "onClick" h1]
  refine ⟨?_, ?_, ?_⟩
  · simp [fireOnClick, objGet_getTogglerProps_onClick, hov, attrFun, fireAttr,
      fireComposed]
  · intro h2
    rw [getTogglerProps, herase, objGet_objSpread_not_mem _ _ _ h2, hov]
    simp [objGet]
  · intro k v hm
    rw [getTogglerProps, herase]
    exact objGet_objSpread_mem _ _ _ _ h3 hm

theorem getTogglerProps_composition_witness :
    fireOnClick (getTogglerProps true
        (("onClick", Attr.fn (JsFun.named "extra")) :: [("id", Attr.s "btn")])) ["evt"]
        = [(JsFun.named "extra", ["evt"]), (JsFun.toggleAction, ["evt"])] ∧
    objGet (getTogglerProps true
        (("onClick", Attr.fn (JsFun.named "extra")) :: [("id", Attr.s "btn")]))
        "aria-expanded" = some (Attr.b true) ∧
    objGet (getTogglerProps true
        (("onClick", Attr.fn (JsFun.named "extra")) :: [("id", Attr.s "btn")])) "id"
        = some (Attr.s "btn") ∧
    objGet (getTogglerProps true
        (("onClick", Attr.fn (JsFun.named "extra"))
          :: [("aria-expanded", Attr.b false)])) "aria-expanded"
        = some (Attr.b false) := by
  have h := getTogglerProps_composition (JsFun.named "extra") [("id", Attr.s "btn")]
    ["evt"] (by decide) (by decide)
  have hc := getTogglerProps_composition (JsFun.named "extra")
    [("aria-expanded", Attr.b false)] ["evt"] (by decide) (by decide)
  exact ⟨h.1, h.2.1 (by decide), h.2.2 "id" (Attr.s "btn") (by decide),
    hc.2.2 "aria-expanded" (Attr.b false) (by decide)⟩

/-- Claim C10: the composed onClick invokes a caller-supplied onClick
override first and the container toggle action second, with the same
argument list; when no override is supplied the absent entry is skipped
and the toggle action alone is invoked. -/
theorem onClick_compose_order (onState : Bool) (ov : JsObj) (args : List String) :
    (∀ f : JsFun, objGet ov "onClick" = some (Attr.fn f) →
        fireOnClick (getTogglerProps onState ov) args
          = [(f, args), (JsFun.toggleAction, args)]) ∧
    (objGet ov "onClick" = none →
        fireOnClick (getTogglerProps onState ov) args
          = [(JsFun.toggleAction, args)]) := by
  constructor
  · intro f hf
    simp [fireOnClick, objGet_getTogglerProps_onClick, hf, attrFun, fireAttr,
      fireComposed]
  · intro hf
    simp [fireOnClick, objGet_getTogglerProps_onClick, hf, attrFun, fireAttr,
      fireComposed]

theorem onClick_compose_order_witness :
    fireOnClick (getTogglerProps false [("onClick", Attr.fn (JsFun.named "h"))]) ["e"]
        = [(JsFun.named "h", ["e"]), (JsFun.toggleAction, ["e"])] ∧
    fireOnClick (getTogglerProps false []) ["e"] = [(JsFun.toggleAction, ["e"])] :=
  ⟨(onClick_compose_order false [("onClick", Attr.fn (JsFun.named "h"))] ["e"]).1
      (JsFun.named "h") (by decide),
   (onClick_compose_order false [] ["e"]).2 (by decide)⟩

/-- Claim C2 counterexample: a decorated reader rendered outside any
publisher does not fail. The spread-style withToggle spreads the missing
channel value to nothing, and the decorated ToggleOn unit renders null
without raising any error, exactly as it renders under a publisher whose
state is on = false. -/
theorem context_missing_counterexample :
    toggleOnSpreadInner "child" (withToggle_spread_props [] none) = none ∧
    toggleOnSpreadInner "child" (withToggle_spread_props []
        (some { «on» := false, toggle := JsFun.toggleAction })) = none := by
  decide

/-- Claim C2 amended: a direct reader that destructures the channel value
(ToggleOn of the context variant) fails eagerly at the read site when
rendered outside any publisher subtree, with a TypeError from
destructuring the absent value rather than a dedicated ContextMissingError;
a unit decorated with the spread-style withToggle does not fail there, it
silently renders exactly as it would with on = false. -/
theorem context_missing_behavior : ∀ children : String,
    ToggleOn_ctxReader children none = .error .typeError ∧
    toggleOnSpreadInner children (withToggle_spread_props [] none) = none ∧
    toggleOnSpreadInner children (withToggle_spread_props []
        (some { «on» := false, toggle := JsFun.toggleAction })) = none := by
  intro children
  exact ⟨rfl, rfl, rfl⟩

/-- Claim C6 counterexample: under the spread-style withToggle the caller
parameters are spread after the channel fields, so a caller entry for the
key on shadows the published channel value: with the publisher at
on = true and caller parameter on = false, the inner unit receives
on = false while the channel carries on = true. -/
theorem spread_shadow_counterexample :
    objGet (withToggle_spread_props [("on", Attr.b false)]
        (some { «on» := true, toggle := JsFun.toggleAction })) "on"
      = some (Attr.b false) ∧
    objGet (ctxToObj (some { «on» := true, toggle := JsFun.toggleAction })) "on"
      = some (Attr.b true) := by
  decide

/-- Claim C6 amended: in the reserved-key withToggle wrapper the channel
value is written under the reserved key toggle after the caller
parameters are spread, so no caller entry can shadow it; only the
spread-style wrapper, which spreads caller parameters last, lets entries
for on or toggle shadow the channel value. -/
theorem reserved_key_not_shadowed : ∀ (P : JsObj) (c : ChannelCtx),
    objGet (withToggle_render P (some c)).props "toggle" = some (Attr.obj c) := by
  intro P c
  exact objGet_objSet_self _ _ _

/-- Claim C7 counterexample: the no-hoist withToggle variant returns the
fresh wrapper without copying static members, so a unit carrying the
constant member ToggleMessage loses it on the wrapped unit. -/
theorem noHoist_statics_counterexample :
    objGet (withToggle_noHoist
        { name := "MyToggle", displayName := none,
          statics := [("ToggleMessage", Attr.s "warning")] }).statics "ToggleMessage"
      = none ∧
    objGet ({ name := "MyToggle", displayName := none,
              statics := [("ToggleMessage", Attr.s "warning")] } : DisplayUnit).statics
        "ToggleMessage" = some (Attr.s "warning") := by
  decide

/-- Claim C7 amended: the hoisting withToggle variant preserves every
constant member attached to the unit on the wrapped unit, and both
variants compute the composite diagnostic name
withToggle(displayName-or-name) from the inner unit. -/
theorem decoration_metadata (unit : DisplayUnit)
    (hnd : (objKeys unit.statics).Nodup) :
    (∀ k v, (k, v) ∈ unit.statics →
        objGet (withToggle_hoist unit).statics k = some v) ∧
    (withToggle_hoist unit).displayName
        = some ("withToggle(" ++ (unit.displayName.getD unit.name) ++ ")") ∧
    (withToggle_noHoist unit).displayName
        = some ("withToggle(" ++ (unit.displayName.getD unit.name) ++ ")") := by
  refine ⟨?_, rfl, rfl⟩
  intro k v hm
  exact objGet_objSpread_mem _ _ _ _ hnd hm

theorem decoration_metadata_witness :
    objGet (withToggle_hoist
        { name := "MyToggle", displayName := none,
          statics := [("ToggleMessage", Attr.s "warning")] }).statics "ToggleMessage"
      = some (Attr.s "warning") :=
  (decoration_metadata
      { name := "MyToggle", displayName := none,
        statics := [("ToggleMessage", Attr.s "warning")] } (by decide)).1
    "ToggleMessage" (Attr.s "warning") (by decide)

/-- Claim C8: a decorated unit rendered with an innerRef parameter
forwards it to the inner unit reference slot and strips it from the
ordinary parameters handed to the inner unit. -/
theorem innerRef_forwarded (P : JsObj) (r : Attr) (context : Option ChannelCtx)
    (h : objGet P "innerRef" = some r) :
    (withToggle_render P context).ref = some r ∧
    objGet (withToggle_render P context).props "innerRef" = none := by
  refine ⟨h, ?_⟩
  show objGet (objSet (objErase P "innerRef") "toggle" _) "innerRef" = none
  rw [objGet_objSet_ne _ _ _ _ (by decide)]
  exact objGet_eq_none_of_not_mem _ _ (objKeys_objErase_not_mem P "innerRef")

theorem innerRef_forwarded_witness :
    (withToggle_render [("innerRef", Attr.fn (JsFun.named "setRef")),
        ("a", Attr.b true)] none).ref = some (Attr.fn (JsFun.named "setRef")) ∧
    objGet (withToggle_render [("innerRef", Attr.fn (JsFun.named "setRef")),
        ("a", Attr.b true)] none).props "innerRef" = none :=
  innerRef_forwarded [("innerRef", Attr.fn (JsFun.named "setRef")),
      ("a", Attr.b true)] (Attr.fn (JsFun.named "setRef")) none (by decide)
